import Mathlib

/-!
Verification of the Rose skin-automation pipeline against its specification.

The Python modules under study are shallowly embedded below:
the shared mutable state record becomes a Lean structure, each thread
tick becomes a pure function from inputs (poll results of the external
LCU client, which may fail) to the successor state, and the pure utility
functions are translated directly.  Machine integers are modelled as
`Int` (Python integers are unbounded), Python floats that only ever hold
times and similarity ratios are modelled as `Rat`, Python `set` values
are modelled as lists used only through membership, and Python `str`
values that are sliced character-wise are modelled as `List Char`.
-/

/- ## Generic association-list helpers (Python dict, used through lookup
   and in-place assignment). -/

def lookupKV {κ α : Type} [DecidableEq κ] : List (κ × α) → κ → Option α
  | [], _ => none
  | (k, v) :: t, key => if k = key then some v else lookupKV t key

def upsertKV {κ α : Type} [DecidableEq κ] : List (κ × α) → κ → α → List (κ × α)
  | [], k, v => [(k, v)]
  | p :: t, k, v => if p.1 = k then (k, v) :: t else p :: upsertKV t k v

theorem lookupKV_upsertKV_self {κ α : Type} [DecidableEq κ]
    (m : List (κ × α)) (k : κ) (v : α) :
    lookupKV (upsertKV m k v) k = some v := by
  induction m with
  | nil => simp [upsertKV, lookupKV]
  | cons p t ih =>
    rw [upsertKV]
    by_cases hp : p.1 = k
    · simp [hp, lookupKV]
    · simp only [hp, if_false]
      rw [lookupKV]
      simp only [hp, if_false]
      exact ih

theorem lookupKV_upsertKV_other {κ α : Type} [DecidableEq κ]
    (m : List (κ × α)) (k k' : κ) (v : α) (hne : k' ≠ k) :
    lookupKV (upsertKV m k v) k' = lookupKV m k' := by
  induction m with
  | nil => simp [upsertKV, lookupKV, Ne.symm hne]
  | cons p t ih =>
    rw [upsertKV]
    by_cases hp : p.1 = k
    · rw [if_pos hp, lookupKV, lookupKV, if_neg (Ne.symm hne), if_neg]
      rw [hp]
      exact Ne.symm hne
    · rw [if_neg hp, lookupKV, lookupKV]
      split
      · rfl
      · exact ih

theorem lookupKV_eq_none_of_not_mem_keys {κ α : Type} [DecidableEq κ]
    (m : List (κ × α)) (k : κ) (h : k ∉ m.map Prod.fst) :
    lookupKV m k = none := by
  induction m with
  | nil => rfl
  | cons p t ih =>
    rw [lookupKV]
    simp only [List.map_cons, List.mem_cons] at h
    push_neg at h
    rw [if_neg (fun hh => h.1 hh.symm)]
    exact ih h.2

theorem mem_of_lookupKV {κ α : Type} [DecidableEq κ]
    (m : List (κ × α)) (k : κ) (v : α) (h : lookupKV m k = some v) :
    (k, v) ∈ m := by
  induction m with
  | nil => exact Option.noConfusion h
  | cons p t ih =>
    rw [lookupKV] at h
    by_cases hp : p.1 = k
    · simp only [hp, if_true, Option.some.injEq] at h
      have hpkv : p = (k, v) := by
        cases p
        simp only [Prod.mk.injEq]
        exact ⟨hp, h⟩
      rw [← hpkv]
      exact List.mem_cons_self p t
    · simp only [hp, if_false] at h
      exact List.mem_cons_of_mem _ (ih h)

/- ## Shared state (state/shared_state.py record, fields as accessed by the
   threads under src/threads, src/pengu and src/utils). -/

/-- Fields of the process-wide SharedState record that the embedded thread
ticks read or write.  Python None becomes `Option.none`; the owned-skins
set and the processed-action set are modelled as lists used only through
membership; timestamps (seconds since epoch) are rationals. -/
structure SharedState where
  phase : Option String
  hovered_champ_id : Option Int
  locked_champ_id : Option Int
  locked_champ_timestamp : Rat
  owned_skin_ids : List Int
  last_hovered_skin_key : Option String
  last_hovered_skin_id : Option Int
  last_hovered_skin_slug : Option String
  selected_skin_id : Option Int
  selected_chroma_id : Option Int
  ui_skin_id : Option Int
  ui_last_text : Option String
  processed_action_ids : List Int
  last_hover_written : Bool
  injection_completed : Bool
  players_visible : Int
  locks_by_cell : List (Int × Int)
  all_locked_announced : Bool
  loadout_countdown_active : Bool
  skin_write_ms : Option Int
  has_current_ticker : Bool
  has_last_remain_ms : Bool
  last_remain_ms : Int
  deriving DecidableEq

/-- Python truthiness of an optional integer: None and 0 are falsy. -/
def truthyInt : Option Int → Bool
  | none => false
  | some n => n != 0

/-- A neutral baseline state used as the starting point of the concrete
states appearing in witnesses and counterexamples. -/
def st0 : SharedState where
  phase := none
  hovered_champ_id := none
  locked_champ_id := none
  locked_champ_timestamp := 0
  owned_skin_ids := []
  last_hovered_skin_key := none
  last_hovered_skin_id := none
  last_hovered_skin_slug := none
  selected_skin_id := none
  selected_chroma_id := none
  ui_skin_id := none
  ui_last_text := none
  processed_action_ids := []
  last_hover_written := false
  injection_completed := false
  players_visible := 0
  locks_by_cell := []
  all_locked_announced := false
  loadout_countdown_active := false
  skin_write_ms := none
  has_current_ticker := false
  has_last_remain_ms := false
  last_remain_ms := 0

/- ## Ownership rule (src/utils/utilities.py lines 15-37 and the inline
   re-implementation in src/threads/ui_skin_thread.py lines 546-547). -/

/-- utilities.is_default_skin: a skin id is the default skin of its champion
iff it is a multiple of 1000. -/
def is_default_skin (skin_id : Int) : Bool :=
  skin_id % 1000 == 0

/-- utilities.is_owned: default skins count as owned, otherwise membership
in the owned set decides. -/
def is_owned (skin_id : Int) (owned_skin_ids : List Int) : Bool :=
  is_default_skin skin_id || decide (skin_id ∈ owned_skin_ids)

/-- The inline ownership check of UISkinThread._trigger_chroma_panel
(ui_skin_thread.py lines 546-547). -/
def ui_ownership_check (skin_id : Int) (owned_skin_ids : List Int) : Bool :=
  let is_base_skin := skin_id % 1000 == 0
  is_base_skin || decide (skin_id ∈ owned_skin_ids)

/-- Claim C9: every skin id divisible by 1000 is unconditionally owned for
every owned set; a non-default id is owned exactly when it is a member of
the owned set; and the UI detection thread applies the identical rule. -/
theorem c9_default_skins_always_owned (skin_id : Int) (owned : List Int) :
    (skin_id % 1000 = 0 → is_owned skin_id owned = true) ∧
    (skin_id % 1000 ≠ 0 → (is_owned skin_id owned = true ↔ skin_id ∈ owned)) ∧
    ui_ownership_check skin_id owned = is_owned skin_id owned := by
  refine ⟨fun h => ?_, fun h => ?_, rfl⟩
  · simp [is_owned, is_default_skin, h]
  · simp [is_owned, is_default_skin, h]

theorem c9_default_skins_always_owned_witness :
    is_owned 157000 [] = true ∧ (is_owned 157001 [157001] = true ↔ (157001 : Int) ∈ [(157001 : Int)]) := by
  exact ⟨(c9_default_skins_always_owned 157000 []).1 (by decide),
         (c9_default_skins_always_owned 157001 [157001]).2.1 (by decide)⟩

/- ## Chroma to base-skin resolution (src/utils/utilities.py lines 61-106). -/

/-- One value of the chroma_id_map: `nonempty` is the Python truthiness of
the per-chroma dict, `skinId` its optional skinId field. -/
structure ChromaEntry where
  nonempty : Bool
  skinId : Option Int
  deriving DecidableEq

/-- utilities.get_base_skin_id_for_chroma, translated branch for branch:
the hard-coded exception table is consulted first, then the chroma map
(absent map, missing key, falsy entry or missing skinId all give None). -/
def get_base_skin_id_for_chroma (chroma_id : Int)
    (chroma_id_map : Option (List (Int × ChromaEntry))) : Option Int :=
  if 99991 ≤ chroma_id ∧ chroma_id ≤ 99999 then some 99007
  else if chroma_id = 99007 then some 99007
  else if chroma_id = 145070 then some 145070
  else if chroma_id = 145071 then some 145070
  else if chroma_id = 103085 then some 103085
  else if chroma_id = 103086 then some 103085
  else
    match chroma_id_map with
    | some m =>
      match lookupKV m chroma_id with
      | some entry => if entry.nonempty then entry.skinId else none
      | none => none
    | none => none

/-- The fallback that get_base_skin_id_for_chroma uses for ids outside the
exception table: a plain chroma-map lookup. -/
def chroma_map_fallback (chroma_id : Int)
    (chroma_id_map : Option (List (Int × ChromaEntry))) : Option Int :=
  match chroma_id_map with
  | some m =>
    match lookupKV m chroma_id with
    | some entry => if entry.nonempty then entry.skinId else none
    | none => none
  | none => none

/-- Claim C7, counterexample to the claim as stated: an id outside the
exception table is resolved by the chroma-map lookup, not by the
arithmetic rule.  Here 157005 resolves to the skinId recorded in the map
(157003, not a multiple of 1000), and with no map at all it resolves to
None rather than to the arithmetic base 157000. -/
theorem c7_arithmetic_fallback_counterexample :
    get_base_skin_id_for_chroma 157005 (some [(157005, ⟨true, some 157003⟩)]) = some 157003 ∧
    (157003 : Int) % 1000 ≠ 0 ∧
    get_base_skin_id_for_chroma 157005 none ≠ some (157005 - 157005 % 1000) := by
  refine ⟨by decide, by decide, by decide⟩

/-- Claim C7 as amended: the exception table is consulted first and is
authoritative regardless of the chroma map (ids 99991-99999 resolve to
99007; 145071 to 145070; 103086 to 103085; the exception base ids 99007,
145070 and 103085 resolve to themselves); every id not covered by the
exception table is resolved by the chroma-map lookup fallback. -/
theorem c7_exception_table_first (m : Option (List (Int × ChromaEntry))) :
    (∀ i : Int, 99991 ≤ i → i ≤ 99999 → get_base_skin_id_for_chroma i m = some 99007) ∧
    get_base_skin_id_for_chroma 99007 m = some 99007 ∧
    get_base_skin_id_for_chroma 145070 m = some 145070 ∧
    get_base_skin_id_for_chroma 145071 m = some 145070 ∧
    get_base_skin_id_for_chroma 103085 m = some 103085 ∧
    get_base_skin_id_for_chroma 103086 m = some 103085 ∧
    (∀ i : Int, ¬(99991 ≤ i ∧ i ≤ 99999) → i ≠ 99007 → i ≠ 145070 → i ≠ 145071 →
      i ≠ 103085 → i ≠ 103086 →
      get_base_skin_id_for_chroma i m = chroma_map_fallback i m) := by
  refine ⟨?_, ?_, ?_, ?_, ?_, ?_, ?_⟩
  · intro i h1 h2
    rw [get_base_skin_id_for_chroma.eq_def, if_pos ⟨h1, h2⟩]
  · rw [get_base_skin_id_for_chroma.eq_def, if_neg (by omega), if_pos rfl]
  · rw [get_base_skin_id_for_chroma.eq_def, if_neg (by omega), if_neg (by omega), if_pos rfl]
  · rw [get_base_skin_id_for_chroma.eq_def, if_neg (by omega), if_neg (by omega),
      if_neg (by omega), if_pos rfl]
  · rw [get_base_skin_id_for_chroma.eq_def, if_neg (by omega), if_neg (by omega),
      if_neg (by omega), if_neg (by omega), if_pos rfl]
  · rw [get_base_skin_id_for_chroma.eq_def, if_neg (by omega), if_neg (by omega),
      if_neg (by omega), if_neg (by omega), if_neg (by omega), if_pos rfl]
  · intro i h0 h1 h2 h3 h4 h5
    rw [get_base_skin_id_for_chroma.eq_def, if_neg h0, if_neg h1, if_neg h2, if_neg h3,
      if_neg h4, if_neg h5]
    rfl

theorem c7_exception_table_first_witness :
    get_base_skin_id_for_chroma 99995 none = some 99007 ∧
    get_base_skin_id_for_chroma 157005 none = chroma_map_fallback 157005 none := by
  exact ⟨(c7_exception_table_first none).1 99995 (by decide) (by decide),
         (c7_exception_table_first none).2.2.2.2.2.2 157005 (by decide) (by decide)
           (by decide) (by decide) (by decide) (by decide)⟩

/- ## Skin processor chroma-reset rule
   (src/pengu/processing/skin_processor.py lines 83-127). -/

/-- SkinProcessor._process_regular_skin_name, given the result of
_find_skin_id (None when the scraper is missing, the champion is not
locked, scraping failed, or no name matched): on a match the chroma
selection is cleared exactly when the new id is a different skin outside
the +-99 offset window of the previous one, then the resolved-selection
fields are updated. -/
def process_regular_skin_name (st : SharedState)
    (find_result : Option (Int × String)) : SharedState :=
  match find_result with
  | none => st
  | some (skin_id, matched_name) =>
    let st1 :=
      match st.last_hovered_skin_id with
      | some old_skin_id =>
        if old_skin_id ≠ skin_id ∧
            ¬(skin_id > old_skin_id ∧ skin_id < old_skin_id + 100) ∧
            ¬(old_skin_id > skin_id ∧ old_skin_id < skin_id + 100) then
          { st with selected_chroma_id := none }
        else st
      | none => st
    { st1 with
      ui_skin_id := some skin_id,
      last_hovered_skin_id := some skin_id,
      last_hovered_skin_key := some matched_name }

/-- The variant-offset window of the specification: variant ids are the
offsets +1..+99 of their base item. -/
def inVariantOffsetWindow (base i : Int) : Bool :=
  decide (base + 1 ≤ i) && decide (i ≤ base + 99)

/-- Claim C2, counterexample to the claim as stated: hover moves from
157002 to 157000; 157000 is outside the variant-offset window of 157002,
yet the chroma selection is NOT cleared (the code also keeps it when the
old id lies in the window of the new one). -/
theorem c2_chroma_reset_counterexample :
    inVariantOffsetWindow 157002 157000 = false ∧
    (process_regular_skin_name
        { st0 with last_hovered_skin_id := some 157002,
                   selected_chroma_id := some 157005 }
        (some (157000, "Dragon Fist Lee Sin"))).selected_chroma_id = some 157005 := by
  exact ⟨by decide, by decide⟩

/-- Claim C2 as amended: for successive resolved ids old and new with
old different from new, the chroma selection survives exactly when one of
the two ids lies in the variant-offset window of the other (the two
directions of the +-99 test at skin_processor.py lines 105-106), and is
reset to None whenever neither does. -/
theorem c2_chroma_reset_window (st : SharedState) (old_id new_id : Int) (nm : String)
    (hold : st.last_hovered_skin_id = some old_id) (hne : old_id ≠ new_id) :
    ((inVariantOffsetWindow old_id new_id = true ∨ inVariantOffsetWindow new_id old_id = true) →
      (process_regular_skin_name st (some (new_id, nm))).selected_chroma_id =
        st.selected_chroma_id) ∧
    ((inVariantOffsetWindow old_id new_id = false ∧ inVariantOffsetWindow new_id old_id = false) →
      (process_regular_skin_name st (some (new_id, nm))).selected_chroma_id = none) := by
  simp only [process_regular_skin_name, hold, inVariantOffsetWindow,
    Bool.and_eq_true, Bool.and_eq_false_iff, decide_eq_true_eq, decide_eq_false_iff_not]
  constructor
  · intro hwin
    rw [if_neg]
    intro ⟨_, hnot1, hnot2⟩
    rcases hwin with ⟨h1, h2⟩ | ⟨h1, h2⟩
    · exact hnot1 ⟨by omega, by omega⟩
    · exact hnot2 ⟨by omega, by omega⟩
  · intro ⟨h1, h2⟩
    rw [if_pos]
    refine ⟨hne, fun ⟨a, b⟩ => ?_, fun ⟨a, b⟩ => ?_⟩
    · rcases h1 with h | h <;> omega
    · rcases h2 with h | h <;> omega

theorem c2_chroma_reset_window_witness :
    (process_regular_skin_name
        { st0 with last_hovered_skin_id := some 157002,
                   selected_chroma_id := some 157005 }
        (some (157003, "n"))).selected_chroma_id = some 157005 ∧
    (process_regular_skin_name
        { st0 with last_hovered_skin_id := some 157002,
                   selected_chroma_id := some 157005 }
        (some (158000, "n"))).selected_chroma_id = none := by
  exact ⟨by
      have h := (c2_chroma_reset_window
        { st0 with last_hovered_skin_id := some 157002, selected_chroma_id := some 157005 }
        157002 157003 "n" rfl (by decide)).1 (Or.inl (by decide))
      simpa using h,
    (c2_chroma_reset_window
        { st0 with last_hovered_skin_id := some 157002, selected_chroma_id := some 157005 }
        157002 158000 "n" rfl (by decide)).2 ⟨by decide, by decide⟩⟩

/- ## Phase monitor (src/threads/phase_thread.py lines 31-111). -/

/-- The side effects of PhaseThread.run on entering ChampSelect
(phase_thread.py lines 69-84): resolved-selection fields, the LCU
selected skin, the owned set and the processed-action set are cleared,
last_hover_written and injection_completed are reset and the locked
champion id is reset; nothing else is touched. -/
def champ_select_entry (st : SharedState) : SharedState :=
  { st with
    last_hovered_skin_key := none
    last_hovered_skin_id := none
    last_hovered_skin_slug := none
    selected_skin_id := none
    owned_skin_ids := []
    processed_action_ids := []
    last_hover_written := false
    injection_completed := false
    locked_champ_id := none }

/-- The defensive reset PhaseThread.run performs on any other phase
(phase_thread.py lines 100-108): leaving champion select. -/
def exit_champ_select_reset (st : SharedState) : SharedState :=
  { st with
    hovered_champ_id := none
    locked_champ_id := none
    players_visible := 0
    locks_by_cell := []
    all_locked_announced := false
    loadout_countdown_active := false
    last_hover_written := false }

/-- One observation step of PhaseThread.run (lines 40-110): a None poll or
a repeated phase is a no-op; otherwise the phase field is written and
the per-phase side effects run (the Lobby, InProgress and EndOfGame
branches only talk to the injection manager, inside try blocks, and do not
touch shared state).  Returns the new shared state and the new last_phase
memo of the thread. -/
def phase_transition_step (st : SharedState) (last_phase : Option String)
    (ph : Option String) : SharedState × Option String :=
  match ph with
  | none => (st, last_phase)
  | some p =>
    if some p = last_phase then (st, last_phase)
    else
      let stp := { st with phase := some p }
      let stp :=
        if p = "Lobby" then stp
        else if p = "ChampSelect" then champ_select_entry stp
        else if p = "InProgress" then stp
        else if p = "EndOfGame" then stp
        else exit_champ_select_reset stp
      (stp, some p)

/-- Claim C3, counterexample to the claim as stated: entering ChampSelect
from Lobby with a hovered champion and a chroma selection in place clears
neither the hovered champion id nor the chroma selection. -/
theorem c3_champ_select_entry_counterexample :
    ((phase_transition_step
        { st0 with phase := some "Lobby", hovered_champ_id := some 157,
                   selected_chroma_id := some 157005, locked_champ_id := some 157 }
        (some "Lobby") (some "ChampSelect")).1.hovered_champ_id = some 157) ∧
    ((phase_transition_step
        { st0 with phase := some "Lobby", hovered_champ_id := some 157,
                   selected_chroma_id := some 157005, locked_champ_id := some 157 }
        (some "Lobby") (some "ChampSelect")).1.selected_chroma_id = some 157005) := by
  exact ⟨by decide, by decide⟩

/-- Claim C3 as amended: every observed transition into ChampSelect clears
the locked champion id, the owned-cosmetics set, the resolved selection
fields (key, id, slug and the LCU selected skin) and resets the
injection-completed flag, regardless of the prior field values and
idempotently; the hovered champion id and the chroma selection are left
unchanged (the hovered champion is only cleared by the defensive reset on
leaving champion select). -/
theorem c3_champ_select_entry_resets (st : SharedState) (last_phase : Option String)
    (h : last_phase ≠ some "ChampSelect") :
    (phase_transition_step st last_phase (some "ChampSelect")).1.locked_champ_id = none ∧
    (phase_transition_step st last_phase (some "ChampSelect")).1.owned_skin_ids = [] ∧
    (phase_transition_step st last_phase (some "ChampSelect")).1.last_hovered_skin_key = none ∧
    (phase_transition_step st last_phase (some "ChampSelect")).1.last_hovered_skin_id = none ∧
    (phase_transition_step st last_phase (some "ChampSelect")).1.last_hovered_skin_slug = none ∧
    (phase_transition_step st last_phase (some "ChampSelect")).1.selected_skin_id = none ∧
    (phase_transition_step st last_phase (some "ChampSelect")).1.injection_completed = false ∧
    (phase_transition_step st last_phase (some "ChampSelect")).1.hovered_champ_id =
      st.hovered_champ_id ∧
    (phase_transition_step st last_phase (some "ChampSelect")).1.selected_chroma_id =
      st.selected_chroma_id ∧
    champ_select_entry (champ_select_entry st) = champ_select_entry st := by
  have hstep : phase_transition_step st last_phase (some "ChampSelect") =
      (champ_select_entry { st with phase := some "ChampSelect" }, some "ChampSelect") := by
    rw [phase_transition_step]
    rw [if_neg (fun hc => h hc.symm)]
    rfl
  rw [hstep]
  refine ⟨rfl, rfl, rfl, rfl, rfl, rfl, rfl, rfl, rfl, rfl⟩

theorem c3_champ_select_entry_resets_witness :
    (phase_transition_step
        { st0 with phase := some "Lobby", locked_champ_id := some 157,
                   owned_skin_ids := [157001], injection_completed := true }
        (some "Lobby") (some "ChampSelect")).1.locked_champ_id = none ∧
    (phase_transition_step
        { st0 with phase := some "Lobby", locked_champ_id := some 157,
                   owned_skin_ids := [157001], injection_completed := true }
        (some "Lobby") (some "ChampSelect")).1.owned_skin_ids = [] := by
  have h := c3_champ_select_entry_resets
    { st0 with phase := some "Lobby", locked_champ_id := some 157,
               owned_skin_ids := [157001], injection_completed := true }
    (some "Lobby") (by decide)
  exact ⟨h.1, h.2.1⟩

/- ## Champion-lock monitor (src/threads/champ_thread.py lines 31-97) and
   exception propagation through the monitor tick bodies.

   The LCU client (lcu/client.py) is an external collaborator whose calls,
   per the interface contract, may fail; a failing call is modelled as an
   `Except.error`. -/

/-- Outcome of one execution of a monitor loop body: either the loop
reaches its sleep with a successor value, or an uncaught exception escapes
the body (terminating the thread). -/
inductive TickResult (α : Type) where
  | ok (a : α)
  | escaped
  deriving DecidableEq

/-- One tick of PhaseThread.run (lines 33-111).  refresh_if_needed runs
inside try/except pass, so its outcome is irrelevant; lcu.phase() is only
called when lcu.ok and is NOT wrapped, so its exception escapes the body. -/
def phase_tick (st : SharedState) (last_phase : Option String) (lcu_ok : Bool)
    (refresh_res : Except Unit Unit) (phase_res : Except Unit (Option String)) :
    TickResult (SharedState × Option String) :=
  match refresh_res with
  | _ =>
    match (if lcu_ok then phase_res else Except.ok none) with
    | .error _ => .escaped
    | .ok ph => .ok (phase_transition_step st last_phase ph)

instance {e a : Type} [DecidableEq e] [DecidableEq a] : DecidableEq (Except e a) := fun x y =>
  match x, y with
  | .error u, .error v =>
    decidable_of_iff (u = v) ⟨fun h => by rw [h], fun h => by injection h⟩
  | .ok u, .ok v =>
    decidable_of_iff (u = v) ⟨fun h => by rw [h], fun h => by injection h⟩
  | .error _, .ok _ => isFalse (fun h => Except.noConfusion h)
  | .ok _, .error _ => isFalse (fun h => Except.noConfusion h)

/-- The poll results consumed by one tick of ChampThread.run.
hovered_res is lcu.hovered_champion_id() (line 38, unwrapped);
my_sel_res is the champion id obtained from lcu.my_selection() (line 40,
the call itself unwrapped, the int conversion guarded so conversion
failures already yield None); sess_call is the lcu.session() call
(line 53, unwrapped); parsed_lock is the lock extracted from the session
inside the try block of lines 54-96 (an error here is caught by the
except: pass); fetch_res is lcu.owned_skins() inside its own try
(None models both an exception and a falsy/non-list result). -/
structure ChampTickIn where
  lcu_ok : Bool
  hovered_res : Except Unit (Option Int)
  my_sel_res : Except Unit (Option Int)
  sess_call : Except Unit Unit
  parsed_lock : Except Unit (Option Int)
  fetch_res : Option (List Int)
  deriving DecidableEq

/-- Successor values of one ChampThread tick: the shared state, the two
thread-local memos, and the on_champion_locked signals sent to the
injection manager during the tick (champion id with the owned set passed
along). -/
structure ChampTickOut where
  st : SharedState
  last_hover : Option Int
  last_lock : Option Int
  signals : List (Int × List Int)
  deriving DecidableEq

/-- One tick of ChampThread.run (champ_thread.py lines 33-97), translated
branch for branch.  The ownership fetch and the prebuild signal happen
only when the observed lock differs from the thread-local last_lock; the
locked_champ_id state field and last_lock are updated for every observed
lock. -/
def champ_tick (st : SharedState) (last_hover last_lock : Option Int)
    (inp : ChampTickIn) : TickResult ChampTickOut :=
  if ¬(inp.lcu_ok = true ∧ st.phase = some "ChampSelect") then
    .ok ⟨st, last_hover, last_lock, []⟩
  else
    match inp.hovered_res with
    | .error _ => .escaped
    | .ok cid0 =>
      match (match cid0 with | none => inp.my_sel_res | some c => Except.ok (some c)) with
      | .error _ => .escaped
      | .ok cid =>
        let hover_upd := truthyInt cid = true ∧ cid ≠ last_hover
        let st1 := if hover_upd then { st with hovered_champ_id := cid } else st
        let lh1 := if hover_upd then cid else last_hover
        match inp.sess_call with
        | .error _ => .escaped
        | .ok _ =>
          match inp.parsed_lock with
          | .error _ => .ok ⟨st1, lh1, last_lock, []⟩
          | .ok none => .ok ⟨st1, lh1, last_lock, []⟩
          | .ok (some locked) =>
            if some locked ≠ last_lock then
              let st2 :=
                match inp.fetch_res with
                | some l => if l = [] then st1 else { st1 with owned_skin_ids := l }
                | none => st1
              .ok ⟨{ st2 with locked_champ_id := some locked }, lh1, some locked,
                   [(locked, st2.owned_skin_ids)]⟩
            else
              .ok ⟨{ st1 with locked_champ_id := some locked }, lh1, some locked, []⟩

/-- The prebuild signals emitted during a tick (empty when the tick
escaped). -/
def tick_signals : TickResult ChampTickOut → List (Int × List Int)
  | .ok o => o.signals
  | .escaped => []

/-- The owned-skins set after a tick (empty when the tick escaped). -/
def tick_owned : TickResult ChampTickOut → List Int
  | .ok o => o.st.owned_skin_ids
  | .escaped => []

/-- The locked_champ_id state field after a tick. -/
def tick_locked : TickResult ChampTickOut → Option Int
  | .ok o => o.st.locked_champ_id
  | .escaped => none

def c4_state : SharedState :=
  { st0 with phase := some "ChampSelect", owned_skin_ids := [157001] }

def c4_inp : ChampTickIn :=
  ⟨true, .ok none, .ok none, .ok (), .ok (some 157), some [999]⟩

def c4_inp_fail : ChampTickIn :=
  ⟨true, .ok none, .ok none, .ok (), .ok (some 42), none⟩

/-- Claim C4, counterexample to the claim as stated: with the thread-local
last_lock already 157, observing champion 157 locked again does NOT
re-fetch the owned set (it stays [157001] although the collaborator now
reports [999]) and does NOT signal the coordinator, unlike a first lock
of 157 from last_lock = None, which stores [999] and signals; moreover a
first lock whose ownership fetch fails keeps the previous owned set
[157001] instead of proceeding with an empty one. -/
theorem c4_relock_counterexample :
    tick_signals (champ_tick c4_state none (some 157) c4_inp) = [] ∧
    tick_owned (champ_tick c4_state none (some 157) c4_inp) = [157001] ∧
    tick_signals (champ_tick c4_state none none c4_inp) = [(157, [999])] ∧
    tick_owned (champ_tick c4_state none none c4_inp) = [999] ∧
    tick_owned (champ_tick c4_state none none c4_inp_fail) = [157001] := by
  refine ⟨by decide, by decide, by decide, by decide, by decide⟩

/-- Claim C4 as amended: a lock observation equal to the thread-local
last_lock only re-writes the locked_champ_id state field, emitting no
prebuild signal and leaving the owned set untouched; a lock observation
different from last_lock fetches ownership (a failed or falsy fetch
leaves the owned set unchanged, a non-empty fetched list replaces it) and
signals the coordinator exactly once with the post-fetch owned set. -/
theorem c4_lock_transition (st : SharedState) (lh ll : Option Int) (inp : ChampTickIn)
    (locked : Int) (hok : inp.lcu_ok = true) (hph : st.phase = some "ChampSelect")
    (hhov : inp.hovered_res = Except.ok none) (hsel : inp.my_sel_res = Except.ok none)
    (hsess : inp.sess_call = Except.ok ())
    (hlock : inp.parsed_lock = Except.ok (some locked)) :
    (some locked = ll →
      tick_signals (champ_tick st lh ll inp) = [] ∧
      tick_owned (champ_tick st lh ll inp) = st.owned_skin_ids ∧
      tick_locked (champ_tick st lh ll inp) = some locked) ∧
    (some locked ≠ ll →
      tick_signals (champ_tick st lh ll inp) =
        [(locked, tick_owned (champ_tick st lh ll inp))] ∧
      tick_locked (champ_tick st lh ll inp) = some locked ∧
      (inp.fetch_res = none → tick_owned (champ_tick st lh ll inp) = st.owned_skin_ids) ∧
      (∀ l, inp.fetch_res = some l → l ≠ [] →
        tick_owned (champ_tick st lh ll inp) = l)) := by
  have hred : champ_tick st lh ll inp =
      (if some locked ≠ ll then
        let st2 :=
          match inp.fetch_res with
          | some l => if l = [] then st else { st with owned_skin_ids := l }
          | none => st
        .ok ⟨{ st2 with locked_champ_id := some locked }, lh, some locked,
             [(locked, st2.owned_skin_ids)]⟩
      else
        .ok ⟨{ st with locked_champ_id := some locked }, lh, some locked, []⟩) := by
    rw [champ_tick, if_neg (by simp [hok, hph]), hhov, hsel, hsess, hlock]
    simp [truthyInt]
  constructor
  · intro heq
    rw [hred, if_neg (by simp [heq])]
    exact ⟨rfl, rfl, rfl⟩
  · intro hne
    rw [hred, if_pos hne]
    cases hfetch : inp.fetch_res with
    | none =>
      exact ⟨rfl, rfl, fun _ => rfl, fun l hl => absurd hl (fun hc => Option.noConfusion hc)⟩
    | some l =>
      by_cases hl : l = []
      · subst hl
        refine ⟨rfl, rfl, fun hc => Option.noConfusion hc, fun l' hl' hne' => ?_⟩
        cases hl'
        exact absurd rfl hne'
      · simp only [if_neg hl]
        refine ⟨rfl, rfl, fun hc => Option.noConfusion hc, fun l' hl' _ => ?_⟩
        cases hl'
        rfl

theorem c4_lock_transition_witness :
    tick_signals (champ_tick c4_state none (some 157) c4_inp) = [] ∧
    tick_locked (champ_tick c4_state none (some 157) c4_inp) = some 157 := by
  have h := (c4_lock_transition c4_state none (some 157) c4_inp 157
    (by decide) (by decide) (by decide) (by decide) (by decide) (by decide)).1 rfl
  exact ⟨h.1, h.2.2⟩

/-- Claim C6, counterexample to the claim as stated: a failing
lcu.phase() call (phase_thread.py line 39, outside the try block) escapes
the phase-monitor loop body, and a failing lcu.hovered_champion_id() call
(champ_thread.py line 38, outside any try block) escapes the
champion-monitor loop body. -/
theorem c6_exception_escape_counterexample :
    phase_tick st0 none true (Except.ok ()) (Except.error ()) = .escaped ∧
    champ_tick { st0 with phase := some "ChampSelect" } none none
      ⟨true, Except.error (), Except.ok none, Except.ok (), Except.ok none, none⟩ =
      .escaped := by
  exact ⟨by decide, by decide⟩

/-- Claim C6 as amended: only part of each tick body is wrapped.  In the
phase monitor the refresh call is wrapped (its outcome never changes the
tick result) but a failing phase fetch escapes; in the champion monitor a
failure inside the session-parsing block (which contains the ownership
fetch and the prebuild signal) is caught and treated as no change, while
failures of the hovered-champion fetch, of the my-selection fetch and of
the session fetch escape the loop body. -/
theorem c6_partial_exception_containment :
    (∀ (st : SharedState) (lp : Option String) (ok : Bool)
        (r r2 : Except Unit Unit) (pres : Except Unit (Option String)),
      phase_tick st lp ok r pres = phase_tick st lp ok r2 pres) ∧
    (∀ (st : SharedState) (lp : Option String) (r : Except Unit Unit),
      phase_tick st lp true r (Except.error ()) = .escaped) ∧
    (∀ (st : SharedState) (lh ll : Option Int) (inp : ChampTickIn),
      inp.lcu_ok = true → st.phase = some "ChampSelect" →
      inp.hovered_res = Except.ok none → inp.my_sel_res = Except.ok none →
      inp.sess_call = Except.ok () → inp.parsed_lock = Except.error () →
      champ_tick st lh ll inp = .ok ⟨st, lh, ll, []⟩) ∧
    (∀ (st : SharedState) (lh ll : Option Int) (inp : ChampTickIn),
      inp.lcu_ok = true → st.phase = some "ChampSelect" →
      inp.hovered_res = Except.error () →
      champ_tick st lh ll inp = .escaped) ∧
    (∀ (st : SharedState) (lh ll : Option Int) (inp : ChampTickIn),
      inp.lcu_ok = true → st.phase = some "ChampSelect" →
      inp.hovered_res = Except.ok none → inp.my_sel_res = Except.error () →
      champ_tick st lh ll inp = .escaped) ∧
    (∀ (st : SharedState) (lh ll : Option Int) (inp : ChampTickIn),
      inp.lcu_ok = true → st.phase = some "ChampSelect" →
      inp.hovered_res = Except.ok none → inp.my_sel_res = Except.ok none →
      inp.sess_call = Except.error () →
      champ_tick st lh ll inp = .escaped) := by
  refine ⟨?_, ?_, ?_, ?_, ?_, ?_⟩
  · intro st lp ok r r2 pres
    rfl
  · intro st lp r
    rfl
  · intro st lh ll inp hok hph hhov hsel hsess hlock
    rw [champ_tick, if_neg (by simp [hok, hph]), hhov, hsel, hsess, hlock]
    simp [truthyInt]
  · intro st lh ll inp hok hph hhov
    rw [champ_tick, if_neg (by simp [hok, hph]), hhov]
  · intro st lh ll inp hok hph hhov hsel
    rw [champ_tick, if_neg (by simp [hok, hph]), hhov, hsel]
  · intro st lh ll inp hok hph hhov hsel hsess
    rw [champ_tick, if_neg (by simp [hok, hph]), hhov, hsel, hsess]

theorem c6_partial_exception_containment_witness :
    champ_tick { st0 with phase := some "ChampSelect" } none none
      ⟨true, Except.ok none, Except.ok none, Except.ok (), Except.error (), none⟩ =
      .ok ⟨{ st0 with phase := some "ChampSelect" }, none, none, []⟩ := by
  exact c6_partial_exception_containment.2.2.1
    { st0 with phase := some "ChampSelect" } none none
    ⟨true, Except.ok none, Except.ok none, Except.ok (), Except.error (), none⟩
    rfl rfl rfl rfl rfl rfl

/- ## UI-detection gating predicate
   (src/threads/ui_skin_thread.py lines 483-516). -/

/-- The effective injection threshold in milliseconds:
int(getattr(state, skin_write_ms, 300) or 300), i.e. a missing or falsy
(zero) attribute falls back to 300. -/
def effective_threshold_ms (st : SharedState) : Int :=
  match st.skin_write_ms with
  | none => 300
  | some v => if v = 0 then 300 else v

/-- UISkinThread._should_run_detection, translated guard for guard; `now`
is the value of time.time() in seconds. -/
def should_run_detection (st : SharedState) (now : Rat) : Bool :=
  if st.phase ≠ some "ChampSelect" then false
  else if truthyInt st.locked_champ_id = false then false
  else if 0 < st.locked_champ_timestamp ∧ now - st.locked_champ_timestamp < 1/5 then false
  else if st.injection_completed then false
  else if st.loadout_countdown_active ∧ st.has_current_ticker ∧ st.has_last_remain_ms ∧
      st.last_remain_ms ≤ effective_threshold_ms st then false
  else true

/-- The gating condition as the claim words it: champion-select phase, a
champion locked, at least 200 ms elapsed since the recorded lock
timestamp (no constraint when no timestamp was recorded), injection not
completed, and the countdown either inactive or the most recently
observed remaining time (when one was observed) still above the
injection threshold. -/
def detection_gate_spec (st : SharedState) (now : Rat) : Prop :=
  st.phase = some "ChampSelect" ∧
  truthyInt st.locked_champ_id = true ∧
  (0 < st.locked_champ_timestamp → 1/5 ≤ now - st.locked_champ_timestamp) ∧
  st.injection_completed = false ∧
  (st.loadout_countdown_active = false ∨ st.has_last_remain_ms = false ∨
    effective_threshold_ms st < st.last_remain_ms)

instance (st : SharedState) (now : Rat) : Decidable (detection_gate_spec st now) := by
  unfold detection_gate_spec
  infer_instance

/-- Claim C5: under the state invariant that an observed remaining time
only exists together with the countdown ticker attribute (both are
written by the countdown bookkeeping), _should_run_detection returns True
exactly when the phase is ChampSelect, a champion is locked, at least
200 ms have passed since the recorded lock timestamp, injection has not
completed, and the countdown is inactive or the last observed remaining
time has not crossed the injection threshold. -/
theorem c5_detection_gate (st : SharedState) (now : Rat)
    (hinv : st.has_last_remain_ms = true → st.has_current_ticker = true) :
    should_run_detection st now = true ↔ detection_gate_spec st now := by
  unfold should_run_detection detection_gate_spec
  split_ifs with h1 h2 h3 h4 h5
  · simp only [Bool.false_eq_true, false_iff]
    exact fun hc => h1 hc.1
  · simp only [Bool.false_eq_true, false_iff]
    intro hc
    rw [hc.2.1] at h2
    exact Bool.noConfusion h2
  · simp only [Bool.false_eq_true, false_iff]
    intro hc
    have hge := hc.2.2.1 h3.1
    linarith [h3.2]
  · simp only [Bool.false_eq_true, false_iff]
    intro hc
    rw [hc.2.2.2.1] at h4
    exact Bool.noConfusion h4
  · simp only [Bool.false_eq_true, false_iff]
    intro hc
    rcases hc.2.2.2.2 with h | h | h
    · rw [h] at h5
      exact Bool.noConfusion h5.1
    · rw [h] at h5
      exact Bool.noConfusion h5.2.2.1
    · linarith [h5.2.2.2]
  · refine iff_of_true rfl ?_
    push_neg at h1 h3
    refine ⟨h1, ?_, h3, ?_, ?_⟩
    · cases h : truthyInt st.locked_champ_id with
      | false => exact absurd h h2
      | true => rfl
    · cases h : st.injection_completed with
      | false => rfl
      | true => exact absurd h h4
    · by_cases hactive : st.loadout_countdown_active = true
      · by_cases hhas : st.has_last_remain_ms = true
        · right; right
          by_contra hc
          push_neg at hc
          exact h5 ⟨hactive, hinv hhas, hhas, hc⟩
        · right; left
          exact Bool.not_eq_true _ |>.mp hhas
      · left
        exact Bool.not_eq_true _ |>.mp hactive

def c5st : SharedState :=
  { st0 with phase := some "ChampSelect", locked_champ_id := some 157,
             locked_champ_timestamp := 100 }

theorem c5_detection_gate_witness : should_run_detection c5st 101 = true :=
  (c5_detection_gate c5st 101 (by decide)).mpr
    ⟨rfl, rfl, by intro hpos; norm_num [c5st, st0], rfl, Or.inl rfl⟩

/- ## Resolver matching (src/threads/ui_skin_thread.py lines 679-707).

   The similarity function levenshtein_score lives in utils/normalization,
   an external helper module; the matching properties below hold for every
   similarity function, so it is kept as an abstract parameter.  Python
   float similarities are modelled as rationals; available_skins is a dict
   iterated in insertion order, modelled as a list of (id, name) pairs. -/

/-- One iteration of the selection loop of UISkinThread._match_skin_name
(lines 701-705): a candidate replaces the running best exactly when its
similarity strictly exceeds the best similarity so far (0.0 initially)
and clears the 0.3 threshold. -/
def match_step (score : String → String → Rat) (detected : String)
    (acc : Option (Int × String × Rat)) (cand : Int × String) :
    Option (Int × String × Rat) :=
  let similarity := score detected cand.2
  let best_similarity := match acc with | none => 0 | some r => r.2.2
  if best_similarity < similarity ∧ (3 : Rat)/10 ≤ similarity then
    some (cand.1, cand.2, similarity)
  else acc

/-- UISkinThread._match_skin_name restricted to its selection loop: fold
the step over the champion catalog starting from no match. -/
def match_skin_name (score : String → String → Rat) (detected : String)
    (catalog : List (Int × String)) : Option (Int × String × Rat) :=
  catalog.foldl (match_step score detected) none

/-- Loop invariant for the selection fold: an empty accumulator means all
candidates seen so far are below the threshold; a non-empty one records a
candidate from the processed prefix whose similarity clears the
threshold, dominates every processed candidate, and strictly dominates
every candidate before it. -/
def match_inv (score : String → String → Rat) (detected : String)
    (processed : List (Int × String)) : Option (Int × String × Rat) → Prop
  | none => ∀ p ∈ processed, score detected p.2 < 3/10
  | some (i, n, s) =>
    s = score detected n ∧ (3 : Rat)/10 ≤ s ∧
    (∃ l₁ l₂, processed = l₁ ++ (i, n) :: l₂ ∧
      ∀ p ∈ l₁, score detected p.2 < s) ∧
    ∀ p ∈ processed, score detected p.2 ≤ s

theorem match_step_inv (score : String → String → Rat) (detected : String)
    (processed : List (Int × String)) (acc : Option (Int × String × Rat))
    (cand : Int × String) (h : match_inv score detected processed acc) :
    match_inv score detected (processed ++ [cand]) (match_step score detected acc cand) := by
  cases acc with
  | none =>
    rw [match_step]
    by_cases hc : (0 : Rat) < score detected cand.2 ∧ (3 : Rat)/10 ≤ score detected cand.2
    · rw [if_pos hc]
      refine ⟨rfl, hc.2, ⟨processed, [], rfl, ?_⟩, ?_⟩
      · intro p hp
        exact lt_of_lt_of_le (h p hp) hc.2
      · intro p hp
        rcases List.mem_append.mp hp with hp | hp
        · exact le_of_lt (lt_of_lt_of_le (h p hp) hc.2)
        · rcases List.mem_singleton.mp hp with rfl
          exact le_refl _
    · rw [if_neg hc]
      intro p hp
      rcases List.mem_append.mp hp with hp | hp
      · exact h p hp
      · rcases List.mem_singleton.mp hp with rfl
        by_contra hge
        push_neg at hge
        exact hc ⟨lt_of_lt_of_le (by norm_num) hge, hge⟩
  | some r =>
    obtain ⟨i, n, s⟩ := r
    obtain ⟨hs, hthr, ⟨l₁, l₂, hsplit, hl₁⟩, hall⟩ := h
    rw [match_step]
    by_cases hc : s < score detected cand.2 ∧ (3 : Rat)/10 ≤ score detected cand.2
    · rw [if_pos hc]
      refine ⟨rfl, hc.2, ⟨processed, [], rfl, ?_⟩, ?_⟩
      · intro p hp
        exact lt_of_le_of_lt (hall p hp) hc.1
      · intro p hp
        rcases List.mem_append.mp hp with hp | hp
        · exact le_of_lt (lt_of_le_of_lt (hall p hp) hc.1)
        · rcases List.mem_singleton.mp hp with rfl
          exact le_refl _
    · rw [if_neg hc]
      refine ⟨hs, hthr, ⟨l₁, l₂ ++ [cand], by rw [hsplit]; simp, hl₁⟩, ?_⟩
      intro p hp
      rcases List.mem_append.mp hp with hp | hp
      · exact hall p hp
      · have hpc : p = cand := List.mem_singleton.mp hp
        rw [hpc]
        by_cases hle : score detected cand.2 ≤ s
        · exact hle
        · push_neg at hle
          exact absurd ⟨hle, le_trans hthr (le_of_lt hle)⟩ hc

theorem match_fold_inv (score : String → String → Rat) (detected : String)
    (l : List (Int × String)) :
    ∀ (processed : List (Int × String)) (acc : Option (Int × String × Rat)),
      match_inv score detected processed acc →
      match_inv score detected (processed ++ l) (l.foldl (match_step score detected) acc) := by
  induction l with
  | nil =>
    intro processed acc h
    simpa using h
  | cons c t ih =>
    intro processed acc h
    have hstep := match_step_inv score detected processed acc c h
    have := ih (processed ++ [c]) (match_step score detected acc c) hstep
    simpa using this

/-- Claim C1: for every similarity function, detected name and catalog,
a returned match clears the 0.3 threshold, carries the similarity of its
own name, belongs to the catalog, dominates every candidate in the
catalog, and strictly dominates every candidate listed before it (ties
go to the first-seen candidate); and when every candidate scores below
the threshold no match is returned. -/
theorem c1_resolver_matching (score : String → String → Rat) (detected : String)
    (catalog : List (Int × String)) :
    (∀ (i : Int) (n : String) (s : Rat),
      match_skin_name score detected catalog = some (i, n, s) →
      (3 : Rat)/10 ≤ s ∧ s = score detected n ∧ (i, n) ∈ catalog ∧
      (∀ p ∈ catalog, score detected p.2 ≤ s) ∧
      ∃ l₁ l₂, catalog = l₁ ++ (i, n) :: l₂ ∧
        ∀ p ∈ l₁, score detected p.2 < s) ∧
    ((∀ p ∈ catalog, score detected p.2 < 3/10) →
      match_skin_name score detected catalog = none) := by
  have hinv : match_inv score detected catalog (match_skin_name score detected catalog) := by
    have := match_fold_inv score detected catalog [] none (by intro p hp; cases hp)
    simpa [match_skin_name] using this
  constructor
  · intro i n s hres
    rw [hres] at hinv
    obtain ⟨hs, hthr, ⟨l₁, l₂, hsplit, hl₁⟩, hall⟩ := hinv
    refine ⟨hthr, hs, ?_, hall, l₁, l₂, hsplit, hl₁⟩
    rw [hsplit]
    simp
  · intro hbelow
    cases hres : match_skin_name score detected catalog with
    | none => rfl
    | some r =>
      obtain ⟨i, n, s⟩ := r
      rw [hres] at hinv
      obtain ⟨hs, hthr, ⟨l₁, l₂, hsplit, hl₁⟩, hall⟩ := hinv
      have hmem : (i, n) ∈ catalog := by rw [hsplit]; simp
      have := hbelow (i, n) hmem
      rw [← hs] at this
      linarith

def c1score : String → String → Rat := fun _ _ => (2 : Rat)/5

def c1catalog : List (Int × String) := [(157000, "base"), (157002, "Dragon Fist")]

theorem c1_resolver_matching_witness :
    (3 : Rat)/10 ≤ (2 : Rat)/5 ∧ (157000, "base") ∈ c1catalog ∧
    (∀ p ∈ c1catalog, c1score "Dragn Fst" p.2 ≤ (2 : Rat)/5) := by
  have hres : match_skin_name c1score "Dragn Fst" c1catalog =
      some (157000, "base", (2 : Rat)/5) := by
    rw [match_skin_name, c1catalog]
    simp only [List.foldl_cons, List.foldl_nil, match_step, c1score]
    norm_num
  have h := (c1_resolver_matching c1score "Dragn Fst" c1catalog).1
    157000 "base" ((2 : Rat)/5) hres
  exact ⟨h.1, h.2.2.1, h.2.2.2.1⟩

/- ## Historic per-champion persistence (src/utils/core/historic.py).

   The historic.json file is a JSON object whose keys are the canonical
   decimal renderings of champion ids (load_historic_map re-canonicalizes
   every key through str(int(k)) and write_historic_entry writes keys
   produced by str(int(champion_id))); keys are therefore modelled at the
   integer level, with unparseable keys outside the model.  Python str
   values are modelled as lists of characters so that the path-prefix
   slicing of the source is representable. -/

/-- A historic value: an integer skin or chroma id, or a custom mod path
string. -/
inductive HVal where
  | num (n : Int)
  | str (s : List Char)
  deriving DecidableEq

/-- A raw JSON value stored in historic.json.  jint covers Python ints,
jbool Python booleans (which isinstance as int and are coerced through
int()), jstr strings, jother every other JSON value (skipped on load). -/
inductive JVal where
  | jint (n : Int)
  | jbool (b : Bool)
  | jstr (s : List Char)
  | jother
  deriving DecidableEq

/-- The value conversion of load_historic_map (historic.py lines 40-49):
ints kept, booleans coerced by int(), strings kept, everything else
skipped. -/
def decodeJVal : JVal → Option HVal
  | .jint n => some (.num n)
  | .jbool b => some (.num (if b then 1 else 0))
  | .jstr s => some (.str s)
  | .jother => none

/-- json.dump of a loaded map: ints and strings are written back as the
corresponding JSON values. -/
def encodeHVal : HVal → JVal
  | .num n => .jint n
  | .str s => .jstr s

/-- The entry loop of load_historic_map: each parseable entry overwrites
the accumulated dict at its canonical key, skipped entries leave it
unchanged. -/
def load_entries (acc : List (Int × HVal)) : List (Int × JVal) → List (Int × HVal)
  | [] => acc
  | (k, v) :: t =>
    load_entries (match decodeJVal v with
                  | some h => upsertKV acc k h
                  | none => acc) t

/-- load_historic_map (historic.py lines 26-53): a missing or invalid file
gives the empty map, otherwise the entries are folded into a dict. -/
def load_historic_map (file : Option (List (Int × JVal))) : List (Int × HVal) :=
  match file with
  | none => []
  | some data => load_entries [] data

/-- get_historic_skin_for_champion (historic.py lines 56-64). -/
def get_historic_skin_for_champion (champion_id : Int)
    (file : Option (List (Int × JVal))) : Option HVal :=
  lookupKV (load_historic_map file) champion_id

/-- write_historic_entry (historic.py lines 67-83), success path: load the
map, overwrite the entry for the champion, dump the result back. -/
def write_historic_entry (champion_id : Int) (v : HVal)
    (file : Option (List (Int × JVal))) : List (Int × JVal) :=
  (upsertKV (load_historic_map file) champion_id v).map
    (fun p => (p.1, encodeHVal p.2))

/-- The five characters of the "path:" marker that distinguishes custom
mod references from numeric ids. -/
def pathMarker : List Char := ['p', 'a', 't', 'h', ':']

/-- is_custom_mod_path (historic.py lines 86-95): value.startswith("path:"). -/
def is_custom_mod_path : HVal → Bool
  | .str s => pathMarker.isPrefixOf s
  | .num _ => false

/-- get_custom_mod_path (historic.py lines 98-109): value[5:] strips the
five-character prefix. -/
def get_custom_mod_path (v : HVal) : Option (List Char) :=
  if is_custom_mod_path v then
    match v with
    | .str s => some (s.drop 5)
    | .num _ => none
  else none

theorem decodeJVal_encodeHVal (h : HVal) : decodeJVal (encodeHVal h) = some h := by
  cases h <;> rfl

def firstSome {α : Type} : Option α → Option α → Option α
  | some v, _ => some v
  | none, b => b

theorem firstSome_none {α : Type} (b : Option α) : firstSome none b = b := rfl

theorem firstSome_some {α : Type} (v : α) (b : Option α) :
    firstSome (some v) b = some v := rfl

theorem mem_keys_upsertKV {κ α : Type} [DecidableEq κ]
    (m : List (κ × α)) (k : κ) (v : α) (x : κ) :
    x ∈ (upsertKV m k v).map Prod.fst ↔ x ∈ m.map Prod.fst ∨ x = k := by
  induction m with
  | nil => simp [upsertKV]
  | cons q t ih =>
    rw [upsertKV]
    by_cases hq : q.1 = k
    · rw [if_pos hq]
      simp only [List.map_cons, List.mem_cons, hq]
      tauto
    · rw [if_neg hq]
      simp only [List.map_cons, List.mem_cons, ih]
      tauto

theorem upsertKV_keys_nodup {κ α : Type} [DecidableEq κ]
    (m : List (κ × α)) (k : κ) (v : α) (h : (m.map Prod.fst).Nodup) :
    ((upsertKV m k v).map Prod.fst).Nodup := by
  induction m with
  | nil => simp [upsertKV]
  | cons q t ih =>
    rw [upsertKV]
    simp only [List.map_cons, List.nodup_cons] at h
    by_cases hq : q.1 = k
    · rw [if_pos hq]
      simp only [List.map_cons, List.nodup_cons]
      rw [← hq]
      exact ⟨h.1, h.2⟩
    · rw [if_neg hq]
      simp only [List.map_cons, List.nodup_cons]
      refine ⟨fun hc => ?_, ih h.2⟩
      rcases (mem_keys_upsertKV t k v q.1).mp hc with hm | hm
      · exact h.1 hm
      · exact hq hm

theorem lookupKV_load_entries (t : List (Int × HVal))
    (ht : (t.map Prod.fst).Nodup) (k : Int) :
    ∀ acc : List (Int × HVal),
      lookupKV (load_entries acc (t.map (fun p => (p.1, encodeHVal p.2)))) k =
        firstSome (lookupKV t k) (lookupKV acc k) := by
  induction t with
  | nil => intro acc; rfl
  | cons p t ih =>
    intro acc
    obtain ⟨k0, v0⟩ := p
    simp only [List.map_cons, List.nodup_cons] at ht
    simp only [List.map_cons, load_entries, decodeJVal_encodeHVal]
    rw [ih ht.2]
    by_cases hk : k0 = k
    · subst hk
      have hnone : lookupKV t k0 = none :=
        lookupKV_eq_none_of_not_mem_keys t k0 ht.1
      rw [hnone, firstSome_none, lookupKV_upsertKV_self,
        show lookupKV ((k0, v0) :: t) k0 = some v0 by rw [lookupKV]; simp,
        firstSome_some]
    · rw [show lookupKV ((k0, v0) :: t) k = lookupKV t k by rw [lookupKV]; simp [hk]]
      cases hres : lookupKV t k with
      | some v => rw [firstSome_some, firstSome_some]
      | none =>
        rw [firstSome_none, firstSome_none,
          lookupKV_upsertKV_other _ _ _ _ (fun hh => hk hh.symm)]

theorem load_entries_keys_nodup (l : List (Int × JVal)) :
    ∀ acc : List (Int × HVal), (acc.map Prod.fst).Nodup →
      ((load_entries acc l).map Prod.fst).Nodup := by
  induction l with
  | nil => intro acc hacc; exact hacc
  | cons p t ih =>
    intro acc hacc
    obtain ⟨k, v⟩ := p
    rw [load_entries]
    cases decodeJVal v with
    | none => exact ih acc hacc
    | some h => exact ih _ (upsertKV_keys_nodup acc k h hacc)

theorem load_historic_map_keys_nodup (file : Option (List (Int × JVal))) :
    ((load_historic_map file).map Prod.fst).Nodup := by
  cases file with
  | none => simp [load_historic_map]
  | some data => exact load_entries_keys_nodup data [] (by simp)

theorem lookupKV_write_historic (file : Option (List (Int × JVal))) (c : Int)
    (v : HVal) (k : Int) :
    lookupKV (load_historic_map (some (write_historic_entry c v file))) k =
      firstSome (lookupKV (upsertKV (load_historic_map file) c v) k) none := by
  exact lookupKV_load_entries _
    (upsertKV_keys_nodup _ _ _ (load_historic_map_keys_nodup file)) k []

/-- Claim C8: writing a historic value (an integer id or a path-prefixed
custom reference) for a champion makes a subsequent read return exactly
that value while reads for every other champion are unchanged; a historic
value is a custom mod path exactly when it is a string starting with the
five characters p a t h colon, and stripping the prefix recovers the
path. -/
theorem c8_historic_round_trip (file : Option (List (Int × JVal)))
    (c c' : Int) (v : HVal) (hne : c' ≠ c) :
    get_historic_skin_for_champion c (some (write_historic_entry c v file)) = some v ∧
    get_historic_skin_for_champion c' (some (write_historic_entry c v file)) =
      get_historic_skin_for_champion c' file ∧
    (∀ w : HVal, is_custom_mod_path w = true ↔
      ∃ s, w = .str s ∧ pathMarker.isPrefixOf s = true) ∧
    (∀ s : List Char, is_custom_mod_path (.str (pathMarker ++ s)) = true) ∧
    (∀ s : List Char, get_custom_mod_path (.str (pathMarker ++ s)) = some s) := by
  have hpre : ∀ s : List Char,
      pathMarker.isPrefixOf (pathMarker ++ s) = true := fun s => by
    simp [pathMarker, List.isPrefixOf]
  refine ⟨?_, ?_, ?_, hpre, ?_⟩
  · rw [get_historic_skin_for_champion, lookupKV_write_historic,
      lookupKV_upsertKV_self, firstSome_some]
  · rw [get_historic_skin_for_champion, lookupKV_write_historic,
      lookupKV_upsertKV_other _ _ _ _ hne, get_historic_skin_for_champion]
    cases hres : lookupKV (load_historic_map file) c' with
    | some w => rw [firstSome_some]
    | none => rw [firstSome_none]
  · intro w
    cases w with
    | num n =>
      simp only [is_custom_mod_path, Bool.false_eq_true, false_iff]
      intro ⟨s, hw, _⟩
      exact HVal.noConfusion hw
    | str s =>
      simp only [is_custom_mod_path]
      constructor
      · intro h
        exact ⟨s, rfl, h⟩
      · intro ⟨s', hw, hp⟩
        cases hw
        exact hp
  · intro s
    rw [get_custom_mod_path, if_pos]
    · rfl
    · exact hpre s

theorem c8_historic_round_trip_witness :
    get_historic_skin_for_champion 234
        (some (write_historic_entry 234 (.num 234001) (some [(157, .jint 157002)]))) =
      some (.num 234001) ∧
    get_historic_skin_for_champion 157
        (some (write_historic_entry 234 (.num 234001) (some [(157, .jint 157002)]))) =
      get_historic_skin_for_champion 157 (some [(157, .jint 157002)]) := by
  have h := c8_historic_round_trip (some [(157, .jint 157002)]) 234 157
    (.num 234001) (by decide)
  exact ⟨h.1, h.2.1⟩

/- ## Mods root layout (src/injection/mods/storage.py lines 34-90). -/

/-- A root-level entry of the mods directory: a file, or a directory with
its (opaque) list of children names. -/
inductive FsEntry where
  | file
  | dir (contents : List String)
  deriving DecidableEq

/-- The ten known category directories
(ModStorageService.ROOT_CATEGORIES). -/
def ROOT_CATEGORIES : List String :=
  ["skins", "maps", "fonts", "announcers", "ui", "voiceover",
   "loading_screen", "vfx", "sfx", "others"]

/-- Path.mkdir(parents=True, exist_ok=True) on mods_root/category: an
existing directory is untouched, a missing entry becomes an empty
directory, and an existing FILE of that name raises FileExistsError,
which propagates out of the constructor. -/
def mkdirCategory (fs : List (String × FsEntry)) (category : String) :
    Except Unit (List (String × FsEntry)) :=
  match lookupKV fs category with
  | some (.dir _) => .ok fs
  | some .file => .error ()
  | none => .ok (fs ++ [(category, .dir [])])

/-- The creation loop of _ensure_mods_root_layout (storage.py lines
74-75). -/
def mkdirCategories (fs : List (String × FsEntry)) :
    List String → Except Unit (List (String × FsEntry))
  | [] => .ok fs
  | c :: rest =>
    match mkdirCategory fs c with
    | .error e => .error e
    | .ok fs1 => mkdirCategories fs1 rest

/-- One keep/delete decision of the removal loop of
_ensure_mods_root_layout (storage.py lines 78-90): files are skipped and
known category directories are kept; an unknown directory is deleted
best-effort only — shutil.rmtree runs with ignore_errors=True and the
whole scan sits in a try/except that merely logs, so a removal that
silently fails (or is never attempted because the scan aborted earlier)
leaves the directory in place while construction still succeeds.
`failed_removals` names the unknown directories whose removal did not
take effect. -/
def keep_after_removal (failed_removals : List String)
    (p : String × FsEntry) : Bool :=
  match p.2 with
  | .file => true
  | .dir _ => decide (p.1 ∈ ROOT_CATEGORIES) || decide (p.1 ∈ failed_removals)

/-- ModStorageService._ensure_mods_root_layout (storage.py lines 65-90):
create the missing category directories (a root-level FILE named like a
category makes mkdir raise FileExistsError, which propagates out of the
constructor), then best-effort delete the unknown root-level
directories. -/
def ensure_mods_root_layout (failed_removals : List String)
    (fs : List (String × FsEntry)) : Except Unit (List (String × FsEntry)) :=
  match mkdirCategories fs ROOT_CATEGORIES with
  | .error e => .error e
  | .ok fs1 => .ok (fs1.filter (keep_after_removal failed_removals))

theorem mkdirCategory_mem_mono (fs : List (String × FsEntry)) (c : String)
    (fs1 : List (String × FsEntry)) (h : mkdirCategory fs c = .ok fs1)
    (n : String) (e : FsEntry) (hm : (n, e) ∈ fs) : (n, e) ∈ fs1 := by
  rw [mkdirCategory] at h
  cases hl : lookupKV fs c with
  | some v =>
    rw [hl] at h
    cases v with
    | dir d =>
      cases h
      exact hm
    | file => exact Except.noConfusion h
  | none =>
    rw [hl] at h
    cases h
    exact List.mem_append_left _ hm

theorem mkdirCategory_mem_inv (fs : List (String × FsEntry)) (c : String)
    (fs1 : List (String × FsEntry)) (h : mkdirCategory fs c = .ok fs1)
    (n : String) (e : FsEntry) (hm : (n, e) ∈ fs1) :
    (n, e) ∈ fs ∨ (n = c ∧ e = .dir []) := by
  rw [mkdirCategory] at h
  cases hl : lookupKV fs c with
  | some v =>
    rw [hl] at h
    cases v with
    | dir d =>
      cases h
      exact Or.inl hm
    | file => exact Except.noConfusion h
  | none =>
    rw [hl] at h
    cases h
    rcases List.mem_append.mp hm with hm | hm
    · exact Or.inl hm
    · have hpair := List.mem_singleton.mp hm
      rw [Prod.mk.injEq] at hpair
      exact Or.inr hpair

theorem mkdirCategory_dir_exists (fs : List (String × FsEntry)) (c : String)
    (fs1 : List (String × FsEntry)) (h : mkdirCategory fs c = .ok fs1) :
    ∃ d, (c, .dir d) ∈ fs1 := by
  rw [mkdirCategory] at h
  cases hl : lookupKV fs c with
  | some v =>
    rw [hl] at h
    cases v with
    | dir d =>
      cases h
      exact ⟨d, mem_of_lookupKV _ _ _ hl⟩
    | file => exact Except.noConfusion h
  | none =>
    rw [hl] at h
    cases h
    exact ⟨[], List.mem_append_right _ (List.mem_singleton.mpr rfl)⟩

theorem mkdirCategories_mem_mono (cats : List String) :
    ∀ (fs fs1 : List (String × FsEntry)), mkdirCategories fs cats = .ok fs1 →
      ∀ (n : String) (e : FsEntry), (n, e) ∈ fs → (n, e) ∈ fs1 := by
  induction cats with
  | nil =>
    intro fs fs1 h n e hm
    cases h
    exact hm
  | cons c rest ih =>
    intro fs fs1 h n e hm
    rw [mkdirCategories] at h
    cases hstep : mkdirCategory fs c with
    | error u =>
      rw [hstep] at h
      exact Except.noConfusion h
    | ok fsm =>
      rw [hstep] at h
      exact ih fsm fs1 h n e (mkdirCategory_mem_mono fs c fsm hstep n e hm)

theorem mkdirCategories_mem_inv (cats : List String) :
    ∀ (fs fs1 : List (String × FsEntry)), mkdirCategories fs cats = .ok fs1 →
      ∀ (n : String) (e : FsEntry), (n, e) ∈ fs1 →
        (n, e) ∈ fs ∨ (n ∈ cats ∧ e = .dir []) := by
  induction cats with
  | nil =>
    intro fs fs1 h n e hm
    cases h
    exact Or.inl hm
  | cons c rest ih =>
    intro fs fs1 h n e hm
    rw [mkdirCategories] at h
    cases hstep : mkdirCategory fs c with
    | error u =>
      rw [hstep] at h
      exact Except.noConfusion h
    | ok fsm =>
      rw [hstep] at h
      rcases ih fsm fs1 h n e hm with hin | ⟨hc, he⟩
      · rcases mkdirCategory_mem_inv fs c fsm hstep n e hin with hin | ⟨hc, he⟩
        · exact Or.inl hin
        · exact Or.inr ⟨by rw [hc]; exact List.mem_cons_self c rest, he⟩
      · exact Or.inr ⟨List.mem_cons_of_mem c hc, he⟩

theorem mkdirCategories_dirs_exist (cats : List String) :
    ∀ (fs fs1 : List (String × FsEntry)), mkdirCategories fs cats = .ok fs1 →
      ∀ c ∈ cats, ∃ d, (c, .dir d) ∈ fs1 := by
  induction cats with
  | nil =>
    intro fs fs1 h c hc
    cases hc
  | cons c0 rest ih =>
    intro fs fs1 h c hc
    rw [mkdirCategories] at h
    cases hstep : mkdirCategory fs c0 with
    | error u =>
      rw [hstep] at h
      exact Except.noConfusion h
    | ok fsm =>
      rw [hstep] at h
      rcases List.mem_cons.mp hc with rfl | hc
      · obtain ⟨d, hd⟩ := mkdirCategory_dir_exists fs c fsm hstep
        exact ⟨d, mkdirCategories_mem_mono rest fsm fs1 h c (.dir d) hd⟩
      · exact ih fsm fs1 h c hc

def c10fs : List (String × FsEntry) :=
  [("skins", .dir ["157000"]), ("junk", .dir []), ("readme.txt", .file)]

def c10fs_result : List (String × FsEntry) :=
  [("skins", .dir ["157000"]), ("readme.txt", .file), ("maps", .dir []),
   ("fonts", .dir []), ("announcers", .dir []), ("ui", .dir []),
   ("voiceover", .dir []), ("loading_screen", .dir []), ("vfx", .dir []),
   ("sfx", .dir []), ("others", .dir [])]

def c10fs_surviving : List (String × FsEntry) :=
  [("skins", .dir ["157000"]), ("junk", .dir []), ("readme.txt", .file),
   ("maps", .dir []), ("fonts", .dir []), ("announcers", .dir []),
   ("ui", .dir []), ("voiceover", .dir []), ("loading_screen", .dir []),
   ("vfx", .dir []), ("sfx", .dir []), ("others", .dir [])]

/-- Claim C10, counterexample to the claim as stated: when the removal of
the unknown directory junk silently fails (rmtree with ignore_errors, or
the except-wrapped scan aborting before reaching it), construction still
succeeds, yet junk — a root-level directory whose name is not a known
category — survives. -/
theorem c10_layout_counterexample :
    ensure_mods_root_layout ["junk"] c10fs = .ok c10fs_surviving ∧
    ("junk", FsEntry.dir []) ∈ c10fs_surviving ∧
    "junk" ∉ ROOT_CATEGORIES := by
  refine ⟨by decide, by decide, by decide⟩

/-- Claim C10 as amended: when construction succeeds, each of the ten
known categories exists as a root-level directory; root-level files are
exactly those present before; pre-existing category directories keep
their contents; and unknown-directory removal is best-effort only: every
surviving root-level directory is either a known category or an unknown
directory whose removal silently failed, so no unknown directory remains
exactly when every attempted removal took effect. -/
theorem c10_mods_root_layout_best_effort (failed_removals : List String)
    (fs fs' : List (String × FsEntry))
    (h : ensure_mods_root_layout failed_removals fs = .ok fs') :
    (∀ c ∈ ROOT_CATEGORIES, ∃ d, (c, FsEntry.dir d) ∈ fs') ∧
    (∀ (n : String) (d : List String), (n, FsEntry.dir d) ∈ fs' →
      n ∈ ROOT_CATEGORIES ∨ n ∈ failed_removals) ∧
    (failed_removals = [] →
      ∀ (n : String) (d : List String), (n, FsEntry.dir d) ∈ fs' → n ∈ ROOT_CATEGORIES) ∧
    (∀ n : String, ((n, FsEntry.file) ∈ fs' ↔ (n, FsEntry.file) ∈ fs)) ∧
    (∀ c ∈ ROOT_CATEGORIES, ∀ d, (c, FsEntry.dir d) ∈ fs → (c, FsEntry.dir d) ∈ fs') := by
  rw [ensure_mods_root_layout] at h
  cases hmk : mkdirCategories fs ROOT_CATEGORIES with
  | error u =>
    rw [hmk] at h
    exact Except.noConfusion h
  | ok fs1 =>
    rw [hmk] at h
    have hfs' : fs' = fs1.filter (keep_after_removal failed_removals) := by
      cases h
      rfl
    subst hfs'
    have hdirkeep : ∀ (n : String) (d : List String),
        keep_after_removal failed_removals (n, FsEntry.dir d) = true →
        n ∈ ROOT_CATEGORIES ∨ n ∈ failed_removals := by
      intro n d hk
      simp only [keep_after_removal, Bool.or_eq_true, decide_eq_true_eq] at hk
      exact hk
    refine ⟨?_, ?_, ?_, ?_, ?_⟩
    · intro c hc
      obtain ⟨d, hd⟩ := mkdirCategories_dirs_exist ROOT_CATEGORIES fs fs1 hmk c hc
      refine ⟨d, List.mem_filter.mpr ⟨hd, ?_⟩⟩
      simp [keep_after_removal, hc]
    · intro n d hnd
      exact hdirkeep n d (List.mem_filter.mp hnd).2
    · intro hnil n d hnd
      rcases hdirkeep n d (List.mem_filter.mp hnd).2 with hin | hin
      · exact hin
      · rw [hnil] at hin
        cases hin
    · intro n
      constructor
      · intro hn
        have hmem := (List.mem_filter.mp hn).1
        rcases mkdirCategories_mem_inv ROOT_CATEGORIES fs fs1 hmk n .file hmem with
          hin | ⟨_, he⟩
        · exact hin
        · exact FsEntry.noConfusion he
      · intro hn
        refine List.mem_filter.mpr ⟨?_, rfl⟩
        exact mkdirCategories_mem_mono ROOT_CATEGORIES fs fs1 hmk n .file hn
    · intro c hc d hcd
      refine List.mem_filter.mpr ⟨?_, by simp [keep_after_removal, hc]⟩
      exact mkdirCategories_mem_mono ROOT_CATEGORIES fs fs1 hmk c (.dir d) hcd

theorem c10_mods_root_layout_best_effort_witness :
    (("readme.txt", FsEntry.file) ∈ c10fs_result ↔ ("readme.txt", FsEntry.file) ∈ c10fs) ∧
    ("skins", FsEntry.dir ["157000"]) ∈ c10fs_result := by
  have h := c10_mods_root_layout_best_effort [] c10fs c10fs_result (by decide)
  exact ⟨h.2.2.2.1 "readme.txt", h.2.2.2.2 "skins" (by decide) ["157000"] (by decide)⟩
